import Mathlib

/-!
# zerologger: the logger initialiser of `logger.go`

A shallow embedding of `src/logger.go` (package `logger`): the level switch of
`ModuleInit`, the console formatter closures and their shared `currentLogLevel`
variable, the caller-annotation closure, `fileLogger` and the fan-out of the
composed writers, followed by the properties proved about them.

Go strings are modelled as the list of their runes. The Go library functions the
source calls (`strings.ToUpper`, `strings.Split`, `filepath.Base`, `strconv.Itoa`,
`fmt.Sprintf`, `io.MultiWriter`) are embedded from their library definitions under the
same names.
-/

namespace Zerologger

/-! ## Strings -/

/-- Go strings (valid UTF-8 text), as the sequence of their runes. -/
abbrev GoString := List Char

/-- The case table of package `unicode` that `unicode.ToUpper` consults for runes above
`MaxASCII` (`To(UpperCase, r)` over `CaseRanges`). The table is library data and is taken
as a parameter; the three facts recorded about it are those of the Unicode simple case
mapping that decide which runes upper-case to an ASCII letter: U+0131 (dotless i) maps
to `I`, U+017F (long s) maps to `S`, and no other rune above `MaxASCII` maps into ASCII. -/
structure CaseTable where
  /-- The upper-case form of a rune above `MaxASCII`. -/
  upper : Char → Char
  upper_dotless : upper 'ı' = 'I'
  upper_long_s : upper 'ſ' = 'S'
  upper_beyond : ∀ r : Char, 128 ≤ r.toNat → r ≠ 'ı' → r ≠ 'ſ' → 128 ≤ (upper r).toNat

/-- The case table that maps U+0131 and U+017F as Unicode does and leaves the other
runes above `MaxASCII` as they are: a concrete table for evaluating the definitions. -/
def baseCaseTable : CaseTable where
  upper := fun r => if r = 'ı' then 'I' else if r = 'ſ' then 'S' else r
  upper_dotless := by decide
  upper_long_s := by decide
  upper_beyond := by
    intro r h h1 h2
    simp only [h1, h2, if_false]
    exact h

/-- Go `unicode.ToUpper`: the ASCII fast path (`r -= 'a' - 'A'` for `'a' <= r <= 'z'`),
the case table beyond `MaxASCII`. -/
def unicode.ToUpper (T : CaseTable) (r : Char) : Char :=
  if r.toNat ≤ 127 then
    if 'a' ≤ r ∧ r ≤ 'z' then Char.ofNat (r.toNat - ('a'.toNat - 'A'.toNat)) else r
  else T.upper r

/-- Go `strings.ToUpper`: every rune mapped by `unicode.ToUpper` (the ASCII-only branch
of the library function computes the same string byte by byte). -/
def strings.ToUpper (T : CaseTable) (s : GoString) : GoString :=
  s.map (unicode.ToUpper T)

/-- Go `strings.Split(s, sep)` for a separator of one rune: the pieces of `s` between
the occurrences of `sep`; never an empty list. -/
def strings.Split (s : GoString) (sep : Char) : List GoString :=
  match s with
  | [] => [[]]
  | c :: cs =>
    if c = sep then [] :: strings.Split cs sep
    else
      match strings.Split cs sep with
      | piece :: rest => (c :: piece) :: rest
      | [] => [[c]]

/-- Indexing a slice at `[0]`: `none` stands for the index-out-of-range panic. -/
def index0 (xs : List GoString) : Option GoString :=
  match xs with
  | x :: _ => some x
  | [] => none

/-- Go `filepath.Base` with `/` as the separator (no volume names): trailing
separators are stripped, the last element is returned; `"."` for the empty path and
`"/"` for a path of separators only. -/
def filepath.Base (path : GoString) : GoString :=
  if path = [] then ['.']
  else
    let path := path.rdropWhile (fun c => c = '/')
    let path := path.rtakeWhile (fun c => c ≠ '/')
    if path = [] then ['/'] else path

/-- Go `strconv.Itoa`: the decimal rendering of an `int`. -/
def strconv.Itoa (i : Int) : GoString :=
  match i with
  | Int.ofNat n => Nat.toDigits 10 n
  | Int.negSucc n => '-' :: Nat.toDigits 10 (n + 1)

/-- An `interface{}` value handed to a console formatter: a string field of the
record, or `nil` when the record has no such field. -/
inductive Value where
  | str (s : GoString)
  | null
  deriving DecidableEq, Repr

/-- Go `fmt.Sprintf("%v", i)`. -/
def fmt.Sprint (i : Value) : GoString :=
  match i with
  | Value.str s => s
  | Value.null => "<nil>".toList

/-! ## Package-level constants of `logger.go` -/

def loggingTimeFormat : GoString := "02-Jan-2006 15:04:05".toList

def colorReset : GoString := "\x1b[0m".toList
def colorGreen : GoString := "\x1b[32m".toList
def colorRed : GoString := "\x1b[31m".toList
def colorYellow : GoString := "\x1b[33m".toList
def colorPurple : GoString := "\x1b[35m".toList

/-- The map literal `levelColorMap`, as its list of key/value pairs. -/
def levelColorMap : List (GoString × GoString) :=
  [("DEBUG".toList, colorYellow), ("INFO".toList, colorGreen),
   ("WARN".toList, colorPurple), ("ERROR".toList, colorRed)]

/-- Go map indexing `m[k]` on a `map[string]string`: the zero value `""` for a key
that is absent. -/
def mapIndex (m : List (GoString × GoString)) (k : GoString) : GoString :=
  match m.lookup k with
  | some v => v
  | none => []

/-! ## The console formatter closures -/

/-- The variables the formatter closures of `ModuleInit` capture and share. -/
structure Captured where
  currentLogLevel : GoString
  deriving DecidableEq, Repr

/-- The closure `consoleOutput.FormatLevel`: stores the upper-cased level in
`currentLogLevel` and returns the rendering. -/
def FormatLevel (T : CaseTable) (_cap : Captured) (i : Value) : GoString × Captured :=
  let currentLogLevel := strings.ToUpper T (fmt.Sprint i)
  (mapIndex levelColorMap currentLogLevel
      ++ strings.ToUpper T ("[".toList ++ fmt.Sprint i ++ "]".toList) ++ colorReset,
   { currentLogLevel := currentLogLevel })

/-- The closure `consoleOutput.FormatMessage`: reads `currentLogLevel`. -/
def FormatMessage (cap : Captured) (i : Value) : GoString :=
  mapIndex levelColorMap cap.currentLogLevel
    ++ ("[".toList ++ fmt.Sprint i ++ "]".toList) ++ colorReset

/-- The closure `consoleOutput.FormatTimestamp`. -/
def FormatTimestamp (i : Value) : GoString :=
  "[".toList ++ fmt.Sprint i ++ "]".toList

/-- One record on the console: the level formatter runs, then the message formatter
(the order in which the console writer calls them). Returns both renderings and the
captured variables afterwards. -/
def formatRecord (T : CaseTable) (cap : Captured) (level message : Value) :
    GoString × GoString × Captured :=
  let r := FormatLevel T cap level
  (r.1, FormatMessage r.2 message, r.2)

/-! ## Configuration (package `reg_proc/config`, read-only input) -/

structure LoggerConfigDetails where
  LogFilePath : GoString
  LogFileName : GoString
  LogLevel : GoString
  deriving DecidableEq, Repr

structure ApplicationDetails where
  ApplicationName : GoString
  deriving DecidableEq, Repr

structure Configurations where
  LoggerConfigDetails : LoggerConfigDetails
  ApplicationDetails : ApplicationDetails
  deriving DecidableEq, Repr

/-! ## The caller annotation -/

/-- The body of the closure assigned to `zerolog.CallerMarshalFunc`, for the
configuration `cfg` that `logger.config` points to at the time of the call (the closure
captures the logger object and reads the field on every call, see `callCallerFunc`).
`none` stands for a panic of the index expression. -/
def CallerMarshalFunc (cfg : Configurations) (_pc : Nat) (file : GoString) (line : Int) :
    Option GoString :=
  match index0 (strings.Split (filepath.Base file) '.') with
  | none => none
  | some short =>
    let file := short
    let applicationName := cfg.ApplicationDetails.ApplicationName
    some ("[[".toList ++ applicationName ++ "] ==> ".toList ++ file ++ ":".toList
      ++ strconv.Itoa line ++ "]".toList)

/-! ## The rotation writer -/

/-- Go `time.Hour`, a `time.Duration` in nanoseconds. -/
def time.Hour : Int := 60 * 60 * 1000000000

/-- What `rotatelogs.New(pattern, WithRotationTime(d), WithMaxAge(a))` is given. -/
structure RotateLogs where
  pattern : GoString
  rotationTime : Int
  maxAge : Int
  deriving DecidableEq, Repr

/-- The writers `ModuleInit` composes: the console writer on `os.Stderr` with its time
format, and the rotation writer. -/
inductive Writer where
  | console (timeFormat : GoString)
  | rotate (r : RotateLogs)
  deriving DecidableEq, Repr

/-! ## Process-wide state -/

/-- Go `zerolog.Level` (an `int8`). -/
abbrev Level := Int

def zerolog.TraceLevel : Level := -1
def zerolog.DebugLevel : Level := 0
def zerolog.InfoLevel : Level := 1
def zerolog.WarnLevel : Level := 2
def zerolog.ErrorLevel : Level := 3

/-- The value of the package variable `zerolog.CallerMarshalFunc`: the function the
library starts with, or the closure of `ModuleInit`, which captures the pointer
`logger` to the receiver object, here the address of that object. -/
inductive CallerFunc where
  | library
  | closure (logger : Nat)
  deriving DecidableEq, Repr

/-- The package-level variables of `zerolog` that `ModuleInit` assigns. -/
structure Globals where
  globalLevel : Level
  TimeFieldFormat : GoString
  MessageFieldName : GoString
  LevelFieldName : GoString
  TimestampFieldName : GoString
  CallerMarshalFunc : CallerFunc
  deriving DecidableEq, Repr

/-- The state of the process outside the logger object: the `zerolog` globals, the
directories `os.MkdirAll` has created, the lines printed with `fmt.Println`, and the
messages of the events sent through the global logger of `zerolog/log`. -/
structure Proc where
  zerolog : Globals
  madeDirs : List GoString
  stdout : List GoString
  logged : List GoString
  deriving DecidableEq, Repr

/-- How the host answers the system calls of `fileLogger`: whether `os.Stat` on a path
reports an error that `os.IsNotExist` accepts, whether `os.MkdirAll` on it fails, and
whether `rotatelogs.New` rejects a pattern. -/
structure Host where
  statNotExist : GoString → Bool
  mkdirAllFails : GoString → Bool
  newFails : GoString → Bool

/-- A `zerolog.Logger`: its writer (`none` for the zero value of the struct), here the
list of writers of an `io.MultiWriter` where `none` is a nil `io.Writer`; its own
minimum level; and whether the timestamp and caller hooks were added to its context. -/
structure Logger where
  w : Option (List (Option Writer))
  level : Level
  timestamp : Bool
  caller : Bool
  deriving DecidableEq, Repr

/-- The struct `Object`. The pointer field `config` is `none` while nil. `addr` is the
address of the struct, the identity of the pointer `logger *Object` that the methods
receive and the caller closure captures; no method changes it. -/
structure Object where
  addr : Nat
  logFilePath : GoString
  logFileName : GoString
  logLevel : GoString
  Logger : Logger
  config : Option Configurations
  deriving DecidableEq, Repr

/-- The logger objects of the process, by address. -/
abbrev Heap := Nat → Option Object

/-- The heap once the object `o` has been written back at its address. -/
def Heap.store (heap : Heap) (o : Object) : Heap :=
  fun a => if a = o.addr then some o else heap a

/-- A call of the function held in `zerolog.CallerMarshalFunc`. The library function
returns `file:line`. The closure of `ModuleInit` dereferences the captured `logger` and
its `config` field as they are at the time of the call; `none` stands for a panic (nil
`config`, or no object at the address). -/
def callCallerFunc (f : CallerFunc) (heap : Heap) (pc : Nat) (file : GoString)
    (line : Int) : Option GoString :=
  match f with
  | CallerFunc.library => some (file ++ ":".toList ++ strconv.Itoa line)
  | CallerFunc.closure logger =>
    match heap logger with
    | none => none
    | some o =>
      match o.config with
      | none => none
      | some cfg => CallerMarshalFunc cfg pc file line

/-- Go `zerolog.SetGlobalLevel`. -/
def zerolog.SetGlobalLevel (p : Proc) (l : Level) : Proc :=
  { p with zerolog := { p.zerolog with globalLevel := l } }

/-- An event of the global logger at error level (`log.Error()...Msg(msg)`): recorded
when the global level lets error events through. -/
def logError (p : Proc) (msg : GoString) : Proc :=
  if p.zerolog.globalLevel ≤ zerolog.ErrorLevel then { p with logged := p.logged ++ [msg] }
  else p

/-- Go `fmt.Println` of one string. -/
def fmt.Println (p : Proc) (line : GoString) : Proc :=
  { p with stdout := p.stdout ++ [line] }

/-! ## `fileLogger` -/

/-- The second half of `fileLogger`, from `directory := logger.logFilePath` on: builds
the file-name pattern and constructs the rotation writer. The result is the returned
`io.Writer`, `none` for nil. -/
def fileLogger.construct (h : Host) (p : Proc) (logger : Object) : Option Writer × Proc :=
  let directory := logger.logFilePath
  let fileName := logger.logFileName ++ ".log.".toList
  let timePattern := "%Y-%m-%d_%H".toList
  let completeLogFileName := directory ++ (fileName ++ timePattern)
  if h.newFails completeLogFileName then
    (none, logError p "Failed to Initialise Log File".toList)
  else
    (some (Writer.rotate
      { pattern := completeLogFileName
        rotationTime := time.Hour * 1
        maxAge := 7 * 24 * 365 * 3 * time.Hour }), p)

/-- The method `fileLogger`: creates the directory when `os.Stat` reports that it does
not exist, then constructs the rotation writer. -/
def fileLogger (h : Host) (p : Proc) (logger : Object) : Option Writer × Proc :=
  if h.statNotExist logger.logFilePath then
    if h.mkdirAllFails logger.logFilePath then
      (none, logError p "can't create log directory".toList)
    else
      fileLogger.construct h { p with madeDirs := p.madeDirs ++ [logger.logFilePath] } logger
  else
    fileLogger.construct h p logger

/-! ## `ModuleInit` -/

/-- Go `io.MultiWriter(writers...)`: the writers in order (a writer that is itself a
multi-writer would be flattened; none of the writers composed here is one). -/
def io.MultiWriter (writers : List (Option Writer)) : List (Option Writer) := writers

/-- The logger `zerolog.New(mw).With().Timestamp().Caller().Logger()`: `zerolog.New`
gives the logger the lowest level (`TraceLevel`), the context adds the two hooks. -/
def zerolog.New (mw : List (Option Writer)) : Logger :=
  { w := some mw, level := zerolog.TraceLevel, timestamp := true, caller := true }

/-- The `switch strings.ToUpper(logger.logLevel)` of `ModuleInit`: the level the
matching case passes to `zerolog.SetGlobalLevel`, `none` for the `default` case. -/
def switchLevel (upper : GoString) : Option Level :=
  if upper = "DEBUG".toList then some zerolog.DebugLevel
  else if upper = "INFO".toList then some zerolog.InfoLevel
  else if upper = "WARNING".toList then some zerolog.WarnLevel
  else if upper = "ERROR".toList then some zerolog.ErrorLevel
  else none

/-- The method `ModuleInit`: returns its boolean result with the process state and the
logger object afterwards. -/
def ModuleInit (T : CaseTable) (h : Host) (p : Proc) (logger : Object)
    (cfgObj : Configurations) : Bool × Proc × Object :=
  let logger := { logger with config := some cfgObj }
  let logger := { logger with logFilePath := cfgObj.LoggerConfigDetails.LogFilePath }
  let logger := { logger with logFileName := cfgObj.LoggerConfigDetails.LogFileName }
  let logger := { logger with logLevel := cfgObj.LoggerConfigDetails.LogLevel }
  match switchLevel (strings.ToUpper T logger.logLevel) with
  | none =>
    (false, fmt.Println p ("Incorrect log level given : ".toList ++ logger.logLevel), logger)
  | some l =>
    let p := zerolog.SetGlobalLevel p l
    let p := { p with zerolog := { p.zerolog with TimeFieldFormat := loggingTimeFormat } }
    let p := { p with zerolog := { p.zerolog with MessageFieldName := "Message".toList } }
    let p := { p with zerolog := { p.zerolog with LevelFieldName := "LoggingLevel".toList } }
    let p := { p with zerolog :=
      { p.zerolog with TimestampFieldName := "LoggingTimestamp".toList } }
    let p := { p with zerolog :=
      { p.zerolog with CallerMarshalFunc := CallerFunc.closure logger.addr } }
    let writers : List (Option Writer) := []
    let consoleOutput := Writer.console loggingTimeFormat
    let r := fileLogger h p logger
    let writers := writers ++ [some consoleOutput, r.1]
    let mw := io.MultiWriter writers
    let logger := { logger with Logger := zerolog.New mw }
    (true, r.2, logger)

/-! ## Writing through the composed sink -/

/-- The outcome of a `Write`: the returned `(n, err)`, or a run-time panic. -/
inductive WriteResult where
  | returned (n : Nat) (err : Option GoString)
  | panicked
  deriving DecidableEq, Repr

/-- The method `Write` of the multi-writer: each writer in turn is given `p`; the loop
stops at the first error or short write; calling `Write` on a nil `io.Writer` panics.
`dev` says what each writer returns for the bytes; the second component lists the
writers that received the bytes, in order. -/
def multiWrite (dev : Writer → List UInt8 → Nat × Option GoString)
    (ws : List (Option Writer)) (p : List UInt8) : WriteResult × List Writer :=
  match ws with
  | [] => (WriteResult.returned p.length none, [])
  | none :: _ => (WriteResult.panicked, [])
  | some w :: rest =>
    match dev w p with
    | (n, some err) => (WriteResult.returned n (some err), [w])
    | (n, none) =>
      if n ≠ p.length then (WriteResult.returned n (some "short write".toList), [w])
      else
        let r := multiWrite dev rest p
        (r.1, w :: r.2)

/-- Go `zerolog.Logger.should`, the gate every event passes before it is encoded: false
for a logger without a writer and for a level below the level of the logger or below
the global level (no sampler is set on the loggers built here). -/
def should (p : Proc) (l : Logger) (lvl : Level) : Bool :=
  if l.w = none then false
  else if lvl < l.level ∨ lvl < p.zerolog.globalLevel then false
  else true

/-- One log call on a logger: nothing is written when the gate rejects the level
(`none`); otherwise the encoded record goes to the logger's writer. -/
def logCall (dev : Writer → List UInt8 → Nat × Option GoString) (p : Proc) (l : Logger)
    (lvl : Level) (record : List UInt8) : Option (WriteResult × List Writer) :=
  if should p l lvl then
    match l.w with
    | some ws => some (multiWrite dev ws record)
    | none => none
  else none

/-! ## Notions of the specification -/

/-- The four level names of the specification. -/
def levelNames : List GoString :=
  ["DEBUG".toList, "INFO".toList, "WARNING".toList, "ERROR".toList]

/-- The letters of the four level names. -/
def nameLetters : List Char := "DEBUGINFOWARNINGERROR".toList

/-- The lower-case form of an ASCII letter; any other rune is left as it is. -/
def lowerASCII (r : Char) : Char :=
  if 'A' ≤ r ∧ r ≤ 'Z' then Char.ofNat (r.toNat + ('a'.toNat - 'A'.toNat)) else r

/-- Case-insensitive equality of two strings: equal once the ASCII letters are put in
lower case. For the names compared here, which have no `K` and no `S`, this is also
equality under Unicode simple case folding (Go `strings.EqualFold`). -/
def equalFoldASCII (s t : GoString) : Bool :=
  s.map lowerASCII == t.map lowerASCII

/-- Reads the dotless small i (U+0131) as the letter `i`. -/
def dotlessAsI (r : Char) : Char :=
  if r = 'ı' then 'i' else r

/-- The base name of a path with its extension stripped, the extension being the suffix
that starts at the last dot of the base name. -/
def stripExtension (file : GoString) : GoString :=
  let base := filepath.Base file
  if '.' ∈ base then (base.rdropWhile (fun c => c ≠ '.')).dropLast else base

/-- The levels of the specification, in their order `DEBUG < INFO < WARNING < ERROR`. -/
inductive LevelName where
  | DEBUG
  | INFO
  | WARNING
  | ERROR
  deriving DecidableEq, Repr

/-- The position of a level in the order of the specification. -/
def LevelName.rank (l : LevelName) : Nat :=
  match l with
  | LevelName.DEBUG => 0
  | LevelName.INFO => 1
  | LevelName.WARNING => 2
  | LevelName.ERROR => 3

/-- The name of a level as the settings spell it. -/
def LevelName.text (l : LevelName) : GoString :=
  match l with
  | LevelName.DEBUG => "DEBUG".toList
  | LevelName.INFO => "INFO".toList
  | LevelName.WARNING => "WARNING".toList
  | LevelName.ERROR => "ERROR".toList

/-- The `zerolog` level of the records of a level (`Debug()`, `Info()`, `Warn()`,
`Error()`). -/
def LevelName.level (l : LevelName) : Level :=
  match l with
  | LevelName.DEBUG => zerolog.DebugLevel
  | LevelName.INFO => zerolog.InfoLevel
  | LevelName.WARNING => zerolog.WarnLevel
  | LevelName.ERROR => zerolog.ErrorLevel

/-! ## Concrete inputs -/

/-- The settings of the end-to-end scenario, with the level name left open. -/
def settings (path base level : String) : Configurations :=
  { LoggerConfigDetails :=
      { LogFilePath := path.toList, LogFileName := base.toList, LogLevel := level.toList }
    ApplicationDetails := { ApplicationName := "svc1".toList } }

/-- The `zerolog` globals as the library initialises them. -/
def initialGlobals : Globals :=
  { globalLevel := zerolog.TraceLevel
    TimeFieldFormat := "2006-01-02T15:04:05Z07:00".toList
    MessageFieldName := "message".toList
    LevelFieldName := "level".toList
    TimestampFieldName := "time".toList
    CallerMarshalFunc := CallerFunc.library }

/-- A process that has not logged or printed anything. -/
def initialProc : Proc :=
  { zerolog := initialGlobals, madeDirs := [], stdout := [], logged := [] }

/-- An `Object` with the zero value in every field, allocated at address 1. -/
def zeroObject : Object :=
  { addr := 1, logFilePath := [], logFileName := [], logLevel := []
    Logger := { w := none, level := zerolog.DebugLevel, timestamp := false, caller := false }
    config := none }

/-- The object of the end-to-end scenario once `ModuleInit` has copied the settings. -/
def scenarioObject : Object :=
  { zeroObject with
    logFilePath := "/tmp/app".toList, logFileName := "svc".toList, logLevel := "INFO".toList }

/-- A host on which every directory exists and the rotation writer is accepted. -/
def goodHost : Host :=
  { statNotExist := fun _ => false, mkdirAllFails := fun _ => false,
    newFails := fun _ => false }

/-- The end-to-end scenario: `ModuleInit` on a fresh object with the level INFO, on a
host where the file writer is constructed. -/
def scenarioInit : Bool × Proc × Object :=
  ModuleInit baseCaseTable goodHost initialProc zeroObject (settings "/tmp/app" "svc" "INFO")

/-- The rotation writer that `fileLogger` builds for the scenario object. -/
def scenarioWriter : RotateLogs :=
  { pattern := "/tmp/appsvc.log.%Y-%m-%d_%H".toList
    rotationTime := 3600000000000
    maxAge := 662256000000000000 }

/-- The encoded record `{}` of the examples. -/
def someRecord : List UInt8 := [123, 125]

/-- A host on which the log directory is missing and cannot be created. -/
def readOnlyHost : Host :=
  { statNotExist := fun _ => true, mkdirAllFails := fun _ => true,
    newFails := fun _ => false }

/-- Settings with an unsupported level name and another application name. -/
def otherSettings : Configurations :=
  { LoggerConfigDetails :=
      { LogFilePath := "/tmp/other".toList, LogFileName := "oth".toList,
        LogLevel := "TRACE".toList }
    ApplicationDetails := { ApplicationName := "other".toList } }

/-- Writers of which the console writer fails (standard error is closed) and the
rotation writer accepts every byte. -/
def consoleFails (w : Writer) (p : List UInt8) : Nat × Option GoString :=
  match w with
  | Writer.console _ => (0, some "write /dev/stderr: file already closed".toList)
  | Writer.rotate _ => (p.length, none)

/-- Writers that accept every byte they are given. -/
def acceptAll (_w : Writer) (p : List UInt8) : Nat × Option GoString := (p.length, none)

/-! ## Runes and upper-casing -/

theorem char_le_iff (a b : Char) : a ≤ b ↔ a.toNat ≤ b.toNat := Iff.rfl

theorem ascii_ofNat (c : Char) (h : c.toNat ≤ 127) : ∃ n : Fin 128, c = Char.ofNat n.val :=
  ⟨⟨c.toNat, by omega⟩, (Char.ofNat_toNat c).symm⟩

/-- On ASCII runes `unicode.ToUpper` does not consult the case table. -/
theorem ToUpper_ascii (T : CaseTable) (r : Char) (h : r.toNat ≤ 127) :
    unicode.ToUpper T r = unicode.ToUpper baseCaseTable r := by
  simp [unicode.ToUpper, h]

theorem ToUpper_beyond (T : CaseTable) (r : Char) (h : ¬ r.toNat ≤ 127) :
    unicode.ToUpper T r = T.upper r := by
  simp [unicode.ToUpper, h]

theorem lowerASCII_table : ∀ n : Fin 128,
    (lowerASCII (Char.ofNat n.val)).toNat ≤ 127 ∧
    unicode.ToUpper baseCaseTable (lowerASCII (Char.ofNat n.val))
      = unicode.ToUpper baseCaseTable (Char.ofNat n.val) := by
  decide

theorem lowerASCII_beyond (r : Char) (h : ¬ r.toNat ≤ 127) : lowerASCII r = r := by
  unfold lowerASCII
  rw [if_neg]
  rw [char_le_iff, char_le_iff]
  have : 'Z'.toNat = 90 := by decide
  omega

/-- Upper-casing does not see the ASCII letter case of its argument. -/
theorem ToUpper_lowerASCII (T : CaseTable) (r : Char) :
    unicode.ToUpper T (lowerASCII r) = unicode.ToUpper T r := by
  by_cases h : r.toNat ≤ 127
  · obtain ⟨n, rfl⟩ := ascii_ofNat r h
    have := lowerASCII_table n
    rw [ToUpper_ascii T _ this.1, ToUpper_ascii T _ h, this.2]
  · rw [lowerASCII_beyond r h]

/-- Strings that are equal up to ASCII letter case have the same upper-case form. -/
theorem ToUpper_of_equalFold (T : CaseTable) (s t : GoString)
    (h : equalFoldASCII s t = true) : strings.ToUpper T s = strings.ToUpper T t := by
  have h1 : s.map lowerASCII = t.map lowerASCII := by
    simpa [equalFoldASCII] using h
  have key : ∀ u : GoString,
      strings.ToUpper T u = (u.map lowerASCII).map (unicode.ToUpper T) := by
    intro u
    simp only [strings.ToUpper, List.map_map]
    apply List.map_congr_left
    intro r _
    exact (ToUpper_lowerASCII T r).symm
  rw [key s, key t, h1]

theorem fold_table : ∀ n : Fin 128, ∀ t ∈ nameLetters,
    (unicode.ToUpper baseCaseTable (Char.ofNat n.val) = t
      ↔ lowerASCII (dotlessAsI (Char.ofNat n.val)) = lowerASCII t) := by
  decide

theorem nameLetters_facts : ∀ t ∈ nameLetters,
    t.toNat ≤ 127 ∧ t ≠ 'S' ∧ (lowerASCII t).toNat ≤ 127 ∧ (lowerASCII t = 'i' → t = 'I') := by
  decide

/-- For a letter `t` of the level names: a rune upper-cases to `t` exactly when it is `t`
in either ASCII case, or the dotless i for `I`. -/
theorem ToUpper_eq_letter (T : CaseTable) (r t : Char) (ht : t ∈ nameLetters) :
    unicode.ToUpper T r = t ↔ lowerASCII (dotlessAsI r) = lowerASCII t := by
  obtain ⟨ht1, ht2, ht3, ht4⟩ := nameLetters_facts t ht
  by_cases h : r.toNat ≤ 127
  · obtain ⟨n, rfl⟩ := ascii_ofNat r h
    rw [ToUpper_ascii T _ h]
    exact fold_table n t ht
  · rw [ToUpper_beyond T r h]
    by_cases hd : r = 'ı'
    · subst hd
      rw [T.upper_dotless]
      constructor
      · intro e
        subst e
        decide
      · intro e
        exact (ht4 (by simpa [dotlessAsI] using e.symm)).symm
    · have hfold : lowerASCII (dotlessAsI r) = r := by
        simp only [dotlessAsI, hd, if_false]
        exact lowerASCII_beyond r h
      rw [hfold]
      constructor
      · intro e
        by_cases hs : r = 'ſ'
        · subst hs
          rw [T.upper_long_s] at e
          exact absurd e.symm ht2
        · have := T.upper_beyond r (by omega) hd hs
          rw [e] at this
          omega
      · intro e
        rw [e] at h
        exact absurd ht3 h

/-- A string upper-cases to a word over the letters of the level names exactly when,
with dotless i read as `i`, it is that word up to ASCII letter case. -/
theorem ToUpper_eq_word (T : CaseTable) (s L : GoString) (hL : ∀ t ∈ L, t ∈ nameLetters) :
    strings.ToUpper T s = L ↔ equalFoldASCII (s.map dotlessAsI) L = true := by
  have goal : strings.ToUpper T s = L
      ↔ (s.map dotlessAsI).map lowerASCII = L.map lowerASCII := by
    induction s generalizing L with
    | nil =>
      cases L with
      | nil => simp [strings.ToUpper]
      | cons t ts => simp [strings.ToUpper]
    | cons r rs ih =>
      cases L with
      | nil => simp [strings.ToUpper]
      | cons t ts =>
        have h1 := ToUpper_eq_letter T r t (hL t (List.mem_cons_self t ts))
        have h2 := ih ts (fun u hu => hL u (List.mem_cons_of_mem t hu))
        simp only [strings.ToUpper, List.map_cons, List.cons.injEq] at h2 ⊢
        rw [h1, h2]
  rw [goal]
  simp [equalFoldASCII]

theorem levelNames_letters : ∀ L ∈ levelNames, ∀ t ∈ L, t ∈ nameLetters := by
  decide

theorem levelNames_fold : ∀ L ∈ levelNames, equalFoldASCII (L.map dotlessAsI) L = true := by
  decide

theorem switchLevel_isSome (u : GoString) :
    (switchLevel u).isSome = true ↔ u ∈ levelNames := by
  unfold switchLevel levelNames
  by_cases h1 : u = "DEBUG".toList
  · rw [if_pos h1]
    simp [h1]
  · rw [if_neg h1]
    by_cases h2 : u = "INFO".toList
    · rw [if_pos h2]
      simp [h2]
    · rw [if_neg h2]
      by_cases h3 : u = "WARNING".toList
      · rw [if_pos h3]
        simp [h3]
      · rw [if_neg h3]
        by_cases h4 : u = "ERROR".toList
        · rw [if_pos h4]
          simp [h4]
        · rw [if_neg h4]
          simp only [List.mem_cons, h1, h2, h3, h4, List.mem_nil_iff, or_self]
          simp

/-- The result of `ModuleInit` is whether the switch found a case. -/
theorem ModuleInit_result (T : CaseTable) (h : Host) (p : Proc) (logger : Object)
    (cfgObj : Configurations) :
    (ModuleInit T h p logger cfgObj).1
      = (switchLevel (strings.ToUpper T cfgObj.LoggerConfigDetails.LogLevel)).isSome := by
  simp only [ModuleInit]
  split <;> rename_i heq <;> simp [heq]

/-! ## C1: which level names `ModuleInit` accepts -/

/-- C1, as amended: `ModuleInit` returns true exactly when the level name, with each
dotless i (U+0131, which Go upper-cases to `I`) read as `i`, is one of DEBUG, INFO,
WARNING, ERROR up to ASCII letter case; in particular it returns true for every
case-insensitive spelling of the four names. -/
theorem ModuleInit_true_iff (T : CaseTable) (h : Host) (p : Proc) (logger : Object)
    (cfgObj : Configurations) :
    ((ModuleInit T h p logger cfgObj).1 = true
      ↔ ∃ L ∈ levelNames,
          equalFoldASCII (cfgObj.LoggerConfigDetails.LogLevel.map dotlessAsI) L = true)
    ∧ ((∃ L ∈ levelNames, equalFoldASCII cfgObj.LoggerConfigDetails.LogLevel L = true)
        → (ModuleInit T h p logger cfgObj).1 = true) := by
  rw [ModuleInit_result, switchLevel_isSome]
  refine ⟨⟨?_, ?_⟩, ?_⟩
  · intro hmem
    exact ⟨_, hmem, (ToUpper_eq_word T _ _ (levelNames_letters _ hmem)).1 rfl⟩
  · rintro ⟨L, hL, e⟩
    rw [(ToUpper_eq_word T _ L (levelNames_letters L hL)).2 e]
    exact hL
  · rintro ⟨L, hL, e⟩
    have hup : strings.ToUpper T L = L :=
      (ToUpper_eq_word T L L (levelNames_letters L hL)).2 (levelNames_fold L hL)
    rw [ToUpper_of_equalFold T _ L e, hup]
    exact hL

/-- The spellings the specification lists: `debug`, `DEBUG` and `Debug` are accepted;
`TRACE`, `WARN`, the empty name and ` info` with a leading blank are rejected. -/
theorem ModuleInit_examples (T : CaseTable) (h : Host) (p : Proc) (logger : Object) :
    (ModuleInit T h p logger (settings "/tmp/app" "svc" "debug")).1 = true
    ∧ (ModuleInit T h p logger (settings "/tmp/app" "svc" "DEBUG")).1 = true
    ∧ (ModuleInit T h p logger (settings "/tmp/app" "svc" "Debug")).1 = true
    ∧ (ModuleInit T h p logger (settings "/tmp/app" "svc" "TRACE")).1 = false
    ∧ (ModuleInit T h p logger (settings "/tmp/app" "svc" "WARN")).1 = false
    ∧ (ModuleInit T h p logger (settings "/tmp/app" "svc" "")).1 = false
    ∧ (ModuleInit T h p logger (settings "/tmp/app" "svc" " info")).1 = false := by
  simp only [ModuleInit_result]
  exact ⟨rfl, rfl, rfl, rfl, rfl, rfl, rfl⟩

/-- C1, counterexample: the level name spelt with a dotless i, which is not INFO (nor
another of the four names) in a different letter case, is accepted. -/
theorem ModuleInit_dotless_accepted :
    (∀ (T : CaseTable) (h : Host) (p : Proc) (logger : Object),
        (ModuleInit T h p logger (settings "/tmp/app" "svc" "ınfo")).1 = true)
    ∧ (∀ L ∈ levelNames, equalFoldASCII "ınfo".toList L = false) := by
  refine ⟨?_, by decide⟩
  intro T h p logger
  rw [ModuleInit_result, switchLevel_isSome]
  have e : strings.ToUpper T "ınfo".toList = "INFO".toList :=
    (ToUpper_eq_word T _ _ (levelNames_letters _ (by decide))).2 (by decide)
  show strings.ToUpper T "ınfo".toList ∈ levelNames
  rw [e]
  decide

/-! ## C2 to C4: the console formatters -/

theorem ToUpper_brackets (T : CaseTable) (s : GoString) :
    strings.ToUpper T ("[".toList ++ s ++ "]".toList)
      = "[".toList ++ strings.ToUpper T s ++ "]".toList := by
  simp only [strings.ToUpper, List.map_append]
  rfl

/-- Indexing a map at a key it does not hold gives the empty string. -/
theorem mapIndex_absent (m : List (GoString × GoString)) (k : GoString)
    (hk : k ∉ m.map Prod.fst) : mapIndex m k = [] := by
  have hnone : m.lookup k = none := by
    rw [List.lookup_eq_none_iff]
    intro q hq
    rw [bne_iff_ne]
    intro hkq
    apply hk
    rw [List.mem_map]
    exact ⟨q, hq, hkq.symm⟩
  simp [mapIndex, hnone]

/-- What the level formatter returns and stores, in terms of the upper-cased level. -/
theorem FormatLevel_eq (T : CaseTable) (cap : Captured) (i : Value) :
    FormatLevel T cap i
      = (mapIndex levelColorMap (strings.ToUpper T (fmt.Sprint i))
            ++ ("[".toList ++ strings.ToUpper T (fmt.Sprint i) ++ "]".toList) ++ colorReset,
         { currentLogLevel := strings.ToUpper T (fmt.Sprint i) }) := by
  simp only [FormatLevel, ToUpper_brackets]

/-- C2, as amended: for each key of the colour table, DEBUG, INFO, WARN, ERROR, and
every spelling `l` of it in any letter case, the level formatter renders `l` as the
colour escape of the key (yellow, green, purple, red), the bracketed upper-case name and
the reset code. The key for purple is WARN, not WARNING. -/
theorem FormatLevel_colors (T : CaseTable) (cap : Captured) (l L esc : GoString)
    (hL : (L, esc) ∈ [("DEBUG".toList, "\x1b[33m".toList), ("INFO".toList, "\x1b[32m".toList),
      ("WARN".toList, "\x1b[35m".toList), ("ERROR".toList, "\x1b[31m".toList)])
    (hl : equalFoldASCII l L = true) :
    FormatLevel T cap (Value.str l)
      = (esc ++ "[".toList ++ L ++ "]".toList ++ "\x1b[0m".toList, { currentLogLevel := L }) := by
  have hup : strings.ToUpper T L = L ∧ mapIndex levelColorMap L = esc := by
    simp only [List.mem_cons, Prod.mk.injEq, List.mem_nil_iff, or_false] at hL
    rcases hL with ⟨rfl, rfl⟩ | ⟨rfl, rfl⟩ | ⟨rfl, rfl⟩ | ⟨rfl, rfl⟩ <;> exact ⟨rfl, rfl⟩
  rw [FormatLevel_eq]
  simp only [fmt.Sprint]
  rw [ToUpper_of_equalFold T l L hl, hup.1, hup.2]
  simp [colorReset]

/-- C2, witness: the spelling `Warn` is rendered in purple. -/
theorem FormatLevel_colors_witness :
    FormatLevel baseCaseTable { currentLogLevel := [] } (Value.str "Warn".toList)
      = ("\x1b[35m".toList ++ "[".toList ++ "WARN".toList ++ "]".toList ++ "\x1b[0m".toList,
         { currentLogLevel := "WARN".toList }) :=
  FormatLevel_colors baseCaseTable { currentLogLevel := [] } "Warn".toList "WARN".toList
    "\x1b[35m".toList (by decide) (by decide)

/-- C2, counterexample: the level name WARNING is rendered without the purple escape
code, whatever the case table and the captured level. -/
theorem FormatLevel_WARNING_plain :
    (∀ (T : CaseTable) (cap : Captured),
        (FormatLevel T cap (Value.str "WARNING".toList)).1 = "[WARNING]\x1b[0m".toList)
    ∧ List.isPrefixOf "\x1b[35m".toList "[WARNING]\x1b[0m".toList = false := by
  refine ⟨?_, by decide⟩
  intro T cap
  rfl

/-- C3: when record A and then record B are formatted (level formatter, then message
formatter, for each), the message of B carries the colour that the table gives the
upper-cased level of B, the same colour as the level rendering of B, and the renderings
of B do not depend on A or on the earlier value of `currentLogLevel`. -/
theorem FormatMessage_uses_own_level (T : CaseTable) (cap cap0 : Captured)
    (levelA messageA levelB messageB : Value) :
    let afterA := (formatRecord T cap levelA messageA).2.2
    let b := formatRecord T afterA levelB messageB
    b.2.1 = mapIndex levelColorMap (strings.ToUpper T (fmt.Sprint levelB))
        ++ ("[".toList ++ fmt.Sprint messageB ++ "]".toList) ++ colorReset
    ∧ b.1 = mapIndex levelColorMap (strings.ToUpper T (fmt.Sprint levelB))
        ++ ("[".toList ++ strings.ToUpper T (fmt.Sprint levelB) ++ "]".toList) ++ colorReset
    ∧ b = formatRecord T cap0 levelB messageB := by
  intro afterA b
  refine ⟨?_, ?_, ?_⟩
  · show FormatMessage (FormatLevel T afterA levelB).2 messageB = _
    rw [FormatLevel_eq]
    rfl
  · show (FormatLevel T afterA levelB).1 = _
    rw [FormatLevel_eq]
  · rfl

/-- C4, as amended: for a level whose upper-case form is not a key of the colour table,
the level renders as the bracketed upper-case level followed by the reset code and the
next message as the bracketed message followed by the reset code: no colour escape is
put in front, the reset code is still appended. -/
theorem FormatLevel_unmapped (T : CaseTable) (cap : Captured) (l m : GoString)
    (hl : strings.ToUpper T l ∉ levelColorMap.map Prod.fst) :
    let r := FormatLevel T cap (Value.str l)
    r.1 = "[".toList ++ strings.ToUpper T l ++ "]".toList ++ "\x1b[0m".toList
    ∧ FormatMessage r.2 (Value.str m) = "[".toList ++ m ++ "]".toList ++ "\x1b[0m".toList := by
  have hmap : mapIndex levelColorMap (strings.ToUpper T l) = [] :=
    mapIndex_absent levelColorMap _ hl
  intro r
  constructor
  · show (FormatLevel T cap (Value.str l)).1 = _
    rw [FormatLevel_eq]
    simp only [fmt.Sprint]
    rw [hmap]
    simp [colorReset]
  · show FormatMessage (FormatLevel T cap (Value.str l)).2 (Value.str m) = _
    rw [FormatLevel_eq]
    simp only [fmt.Sprint, FormatMessage]
    rw [hmap]
    simp [colorReset]

/-- C4, witness: the level TRACE and the message `started`. -/
theorem FormatLevel_unmapped_witness :
    let r := FormatLevel baseCaseTable { currentLogLevel := "INFO".toList }
      (Value.str "trace".toList)
    r.1 = "[".toList ++ strings.ToUpper baseCaseTable "trace".toList ++ "]".toList
        ++ "\x1b[0m".toList
    ∧ FormatMessage r.2 (Value.str "started".toList)
        = "[".toList ++ "started".toList ++ "]".toList ++ "\x1b[0m".toList :=
  FormatLevel_unmapped baseCaseTable { currentLogLevel := "INFO".toList } "trace".toList
    "started".toList (by decide)

/-- C4, counterexample: for the unmapped level TRACE both renderings end in the reset
escape sequence, so they are not the plain brackets. -/
theorem FormatLevel_TRACE_has_reset :
    (∀ (T : CaseTable) (cap : Captured),
        (formatRecord T cap (Value.str "TRACE".toList) (Value.str "m".toList)).1
            = "[TRACE]\x1b[0m".toList
        ∧ (formatRecord T cap (Value.str "TRACE".toList) (Value.str "m".toList)).2.1
            = "[m]\x1b[0m".toList)
    ∧ "[TRACE]\x1b[0m".toList ≠ "[TRACE]".toList
    ∧ "[m]\x1b[0m".toList ≠ "[m]".toList
    ∧ '\x1b' ∈ "[TRACE]\x1b[0m".toList ∧ '\x1b' ∈ "[m]\x1b[0m".toList := by
  refine ⟨?_, by decide, by decide, by decide, by decide⟩
  intro T cap
  exact ⟨rfl, rfl⟩

/-! ## C5: the caller annotation -/

/-- The first piece of a split is the part of the string before the first separator. -/
theorem index0_Split (s : GoString) (sep : Char) :
    index0 (strings.Split s sep) = some (s.takeWhile (fun c => c ≠ sep)) := by
  induction s with
  | nil => rfl
  | cons c cs ih =>
    by_cases hc : c = sep
    · simp [strings.Split, index0, hc]
    · rw [strings.Split, if_neg hc]
      cases hsplit : strings.Split cs sep with
      | nil =>
        rw [hsplit] at ih
        simp [index0] at ih
      | cons piece rest =>
        rw [hsplit] at ih
        simp only [index0, Option.some.injEq] at ih
        simp [index0, hc, ih]

theorem rdropWhile_after_dot (x y : GoString) (hy : '.' ∉ y) :
    (x ++ '.' :: y).rdropWhile (fun c => decide (c ≠ '.')) = x ++ ['.'] := by
  induction y using List.reverseRecOn with
  | nil => exact List.rdropWhile_concat_neg _ _ _ (by simp)
  | append_singleton ys c ih =>
    have hc : c ≠ '.' := by
      intro e
      apply hy
      simp [e]
    have hys : '.' ∉ ys := by
      intro e
      apply hy
      simp [e]
    have e : x ++ '.' :: (ys ++ [c]) = (x ++ '.' :: ys) ++ [c] := by simp
    rw [e, List.rdropWhile_concat_pos _ _ _ (by simpa using hc)]
    exact ih hys

theorem takeWhile_eq_stripped (b : GoString) (h : b.count '.' ≤ 1) :
    b.takeWhile (fun c => decide (c ≠ '.'))
      = if '.' ∈ b then (b.rdropWhile (fun c => decide (c ≠ '.'))).dropLast else b := by
  by_cases hm : '.' ∈ b
  · rw [if_pos hm]
    obtain ⟨x, y, rfl, hx⟩ := List.eq_append_cons_of_mem hm
    have hy : '.' ∉ y := by
      rw [← List.count_eq_zero]
      simp only [List.count_append, List.count_cons_self] at h
      omega
    rw [rdropWhile_after_dot x y hy, List.dropLast_concat]
    rw [List.takeWhile_append_of_pos]
    · simp
    · intro a ha
      simp only [ne_eq, decide_not, Bool.not_eq_eq_eq_not, Bool.not_true, decide_eq_false_iff_not]
      intro e
      exact hx (e ▸ ha)
  · rw [if_neg hm, List.takeWhile_eq_self_iff]
    intro a ha
    simp only [ne_eq, decide_not, Bool.not_eq_eq_eq_not, Bool.not_true, decide_eq_false_iff_not]
    intro e
    exact hm (e ▸ ha)

/-- C5, as amended: the caller annotation is `[[a] ==> u:n]` with `a` the application
name, `n` the line in decimal and `u` the base name of the file cut at its first dot:
the function always returns, `u` has no dot and is the beginning of the base name, which
continues, if at all, with a dot; `u` is the base name with its extension stripped
whenever the base name has at most one dot. -/
theorem CallerMarshalFunc_eq (cfg : Configurations) (pc : Nat) (file : GoString)
    (line : Int) :
    let u := (filepath.Base file).takeWhile (fun c => c ≠ '.')
    CallerMarshalFunc cfg pc file line
      = some ("[[".toList ++ cfg.ApplicationDetails.ApplicationName ++ "] ==> ".toList ++ u
          ++ ":".toList ++ strconv.Itoa line ++ "]".toList)
    ∧ '.' ∉ u
    ∧ (u = filepath.Base file ∨ ∃ rest, filepath.Base file = u ++ '.' :: rest)
    ∧ ((filepath.Base file).count '.' ≤ 1 → u = stripExtension file) := by
  intro u
  refine ⟨?_, ?_, ?_, ?_⟩
  · simp only [CallerMarshalFunc, index0_Split]
  · intro hmem
    have := List.mem_takeWhile_imp hmem
    simp at this
  · have hsplit := List.takeWhile_append_dropWhile (fun c => decide (c ≠ '.'))
      (filepath.Base file)
    cases hdrop : (filepath.Base file).dropWhile (fun c => decide (c ≠ '.')) with
    | nil =>
      left
      rw [hdrop, List.append_nil] at hsplit
      exact hsplit
    | cons d rest =>
      right
      have hd : d = '.' := by
        have := List.head_dropWhile_not (fun c => decide (c ≠ '.')) (filepath.Base file)
          (by rw [hdrop]; simp)
        simp only [hdrop, List.head_cons] at this
        simpa using this
      refine ⟨rest, ?_⟩
      rw [hdrop, hd] at hsplit
      exact hsplit.symm
  · intro hcount
    exact takeWhile_eq_stripped (filepath.Base file) hcount

/-- C5, counterexample: for `/x/server.pb.go` the annotation names the unit `server`,
while the base name with its extension stripped is `server.pb`. -/
theorem CallerMarshalFunc_multi_dot :
    (∀ pc : Nat, CallerMarshalFunc (settings "/tmp/app" "svc" "INFO") pc
        "/x/server.pb.go".toList 7 = some "[[svc1] ==> server:7]".toList)
    ∧ filepath.Base "/x/server.pb.go".toList = "server.pb.go".toList
    ∧ stripExtension "/x/server.pb.go".toList = "server.pb".toList
    ∧ some "[[svc1] ==> server:7]".toList
        ≠ some ("[[".toList ++ "svc1".toList ++ "] ==> ".toList
            ++ stripExtension "/x/server.pb.go".toList ++ ":".toList ++ strconv.Itoa 7
            ++ "]".toList) := by
  refine ⟨?_, by decide, by decide, by decide⟩
  intro pc
  rfl

/-! ## C6 and C7: the rotation writer -/

/-- The writer `fileLogger` returns, when it returns one. -/
theorem fileLogger_writer (h : Host) (p : Proc) (logger : Object) (w : Writer) (q : Proc)
    (hw : fileLogger h p logger = (some w, q)) :
    w = Writer.rotate
      { pattern := logger.logFilePath ++ (logger.logFileName ++ ".log.".toList
          ++ "%Y-%m-%d_%H".toList)
        rotationTime := time.Hour * 1
        maxAge := 7 * 24 * 365 * 3 * time.Hour } := by
  have hc : ∀ p0 : Proc, fileLogger.construct h p0 logger = (some w, q) →
      w = Writer.rotate
        { pattern := logger.logFilePath ++ (logger.logFileName ++ ".log.".toList
            ++ "%Y-%m-%d_%H".toList)
          rotationTime := time.Hour * 1
          maxAge := 7 * 24 * 365 * 3 * time.Hour } := by
    intro p0 h0
    simp only [fileLogger.construct] at h0
    split at h0
    · simp at h0
    · simp only [Prod.mk.injEq, Option.some.injEq] at h0
      exact h0.1.symm
  simp only [fileLogger] at hw
  split at hw
  · split at hw
    · simp at hw
    · exact hc _ hw
  · exact hc _ hw

/-- C6, the code at the failing input: the pattern handed to the rotation writer is the
path immediately followed by the base name, with no separator put between them; for
`/tmp/app` and `svc` it is `/tmp/appsvc.log.%Y-%m-%d_%H`, a file beside the directory
and not one under it. Only a path that already ends in the separator, as `/tmp/app/`,
gives a pattern under the directory. -/
theorem fileLogger_pattern_concatenates :
    (∀ (h : Host) (p q : Proc) (logger : Object) (r : RotateLogs),
        fileLogger h p logger = (some (Writer.rotate r), q) →
        r.pattern = logger.logFilePath ++ logger.logFileName ++ ".log.%Y-%m-%d_%H".toList)
    ∧ (fileLogger goodHost initialProc scenarioObject).1
        = some (Writer.rotate
            { pattern := "/tmp/appsvc.log.%Y-%m-%d_%H".toList
              rotationTime := time.Hour * 1
              maxAge := 7 * 24 * 365 * 3 * time.Hour })
    ∧ "/tmp/appsvc.log.%Y-%m-%d_%H".toList ≠ "/tmp/app/svc.log.%Y-%m-%d_%H".toList
    ∧ (fileLogger goodHost initialProc
        { scenarioObject with logFilePath := "/tmp/app/".toList }).1
        = some (Writer.rotate
            { pattern := "/tmp/app/svc.log.%Y-%m-%d_%H".toList
              rotationTime := time.Hour * 1
              maxAge := 7 * 24 * 365 * 3 * time.Hour }) := by
  refine ⟨?_, by decide, by decide, by decide⟩
  intro h p q logger r hw
  have := fileLogger_writer h p logger _ q hw
  simp only [Writer.rotate.injEq] at this
  rw [this]
  simp

/-- C7, as amended: every rotation writer that `fileLogger` returns rotates every hour
exactly and keeps files for `7*24*365*3` hours, which is 183960 hours, seven times the
26280 hours of 3 years of 365 days (21 such years); the duration is positive and fits a
signed 64-bit count of nanoseconds. -/
theorem fileLogger_durations (h : Host) (p q : Proc) (logger : Object) (r : RotateLogs)
    (hw : fileLogger h p logger = (some (Writer.rotate r), q)) :
    r.rotationTime = 1 * time.Hour
    ∧ r.maxAge = 7 * 24 * 365 * 3 * time.Hour
    ∧ r.maxAge = 183960 * time.Hour
    ∧ r.maxAge = 7 * (3 * 365 * 24 * time.Hour)
    ∧ r.maxAge = 21 * (365 * 24 * time.Hour)
    ∧ 0 < r.maxAge ∧ r.maxAge < 2 ^ 63 := by
  have := fileLogger_writer h p logger _ q hw
  simp only [Writer.rotate.injEq] at this
  rw [this]
  simp only [time.Hour]
  decide

/-- C7, witness: the writer of the end-to-end scenario. -/
theorem fileLogger_durations_witness :
    fileLogger goodHost initialProc scenarioObject
        = (some (Writer.rotate scenarioWriter), initialProc)
    ∧ scenarioWriter.rotationTime = 1 * time.Hour
    ∧ scenarioWriter.maxAge = 7 * 24 * 365 * 3 * time.Hour
    ∧ scenarioWriter.maxAge = 183960 * time.Hour
    ∧ scenarioWriter.maxAge = 7 * (3 * 365 * 24 * time.Hour)
    ∧ scenarioWriter.maxAge = 21 * (365 * 24 * time.Hour)
    ∧ 0 < scenarioWriter.maxAge ∧ scenarioWriter.maxAge < 2 ^ 63 :=
  ⟨by decide,
   fileLogger_durations goodHost initialProc initialProc scenarioObject scenarioWriter
    (by decide)⟩

/-- C7, counterexample: the retention of the writer of the end-to-end scenario is
183960 hours, which is not the 26280 hours of 3 years. -/
theorem fileLogger_maxAge_not_three_years :
    (fileLogger goodHost initialProc scenarioObject).1
        = some (Writer.rotate
            { pattern := "/tmp/appsvc.log.%Y-%m-%d_%H".toList
              rotationTime := time.Hour
              maxAge := 183960 * time.Hour })
    ∧ (3 * 365 * 24 : Int) = 26280
    ∧ 183960 * time.Hour ≠ 26280 * time.Hour := by
  decide

/-! ## C8 to C10: `ModuleInit` and the composed sink -/

/-- The `zerolog` globals are not touched by `fileLogger`. -/
theorem fileLogger_zerolog (h : Host) (p : Proc) (logger : Object) :
    (fileLogger h p logger).2.zerolog = p.zerolog := by
  have hlog : ∀ (p0 : Proc) (msg : GoString), (logError p0 msg).zerolog = p0.zerolog := by
    intro p0 msg
    simp only [logError]
    split <;> rfl
  have hc : ∀ p0 : Proc, (fileLogger.construct h p0 logger).2.zerolog = p0.zerolog := by
    intro p0
    simp only [fileLogger.construct]
    split
    · exact hlog _ _
    · rfl
  simp only [fileLogger]
  split
  · split
    · exact hlog _ _
    · rw [hc]
  · exact hc p

/-- When the directory is missing and cannot be created, or the rotation writer is
rejected, `fileLogger` returns nil. -/
theorem fileLogger_fails (h : Host) (p : Proc) (logger : Object)
    (hf : (h.statNotExist logger.logFilePath = true ∧ h.mkdirAllFails logger.logFilePath = true)
      ∨ h.newFails (logger.logFilePath ++ (logger.logFileName ++ ".log.".toList
          ++ "%Y-%m-%d_%H".toList)) = true) :
    (fileLogger h p logger).1 = none := by
  have hc : ∀ p0 : Proc, h.newFails (logger.logFilePath ++ (logger.logFileName
      ++ ".log.".toList ++ "%Y-%m-%d_%H".toList)) = true →
      (fileLogger.construct h p0 logger).1 = none := by
    intro p0 hnew
    simp only [fileLogger.construct]
    rw [if_pos hnew]
  simp only [fileLogger]
  rcases hf with ⟨h1, h2⟩ | hnew
  · rw [if_pos h1, if_pos h2]
  · split
    · split
      · rfl
      · exact hc _ hnew
    · exact hc _ hnew

/-- What `ModuleInit` leaves behind when the switch finds the case of level `l`. -/
theorem ModuleInit_of_case (T : CaseTable) (h : Host) (p : Proc) (logger : Object)
    (cfgObj : Configurations) (l : Level)
    (hs : switchLevel (strings.ToUpper T cfgObj.LoggerConfigDetails.LogLevel) = some l) :
    (ModuleInit T h p logger cfgObj).1 = true
    ∧ (ModuleInit T h p logger cfgObj).2.1.zerolog
        = { globalLevel := l
            TimeFieldFormat := loggingTimeFormat
            MessageFieldName := "Message".toList
            LevelFieldName := "LoggingLevel".toList
            TimestampFieldName := "LoggingTimestamp".toList
            CallerMarshalFunc := CallerFunc.closure logger.addr }
    ∧ ∃ (q : Proc) (o : Object),
        o.logFilePath = cfgObj.LoggerConfigDetails.LogFilePath
        ∧ o.logFileName = cfgObj.LoggerConfigDetails.LogFileName
        ∧ (ModuleInit T h p logger cfgObj).2.2.Logger
            = zerolog.New [some (Writer.console loggingTimeFormat), (fileLogger h q o).1] := by
  simp only [ModuleInit]
  rw [hs]
  refine ⟨rfl, ?_, ?_⟩
  · simp only [fileLogger_zerolog]
    rfl
  · exact ⟨_, _, rfl, rfl, rfl⟩

/-- C8, the code at the failing input: whenever `fileLogger` fails, the nil writer it
returns is composed into the sink after the console writer; on a host where the log
directory cannot be created `ModuleInit` returns true with the writers
`[console, nil]`, and the first record that passes the gate reaches the console writer
and then panics on the nil writer. -/
theorem ModuleInit_composes_nil_writer :
    (∀ (T : CaseTable) (h : Host) (p : Proc) (logger : Object) (cfgObj : Configurations),
        (ModuleInit T h p logger cfgObj).1 = true →
        ((h.statNotExist cfgObj.LoggerConfigDetails.LogFilePath = true
            ∧ h.mkdirAllFails cfgObj.LoggerConfigDetails.LogFilePath = true)
          ∨ h.newFails (cfgObj.LoggerConfigDetails.LogFilePath
              ++ (cfgObj.LoggerConfigDetails.LogFileName ++ ".log.".toList
              ++ "%Y-%m-%d_%H".toList)) = true) →
        (ModuleInit T h p logger cfgObj).2.2.Logger.w
          = some [some (Writer.console loggingTimeFormat), none])
    ∧ (ModuleInit baseCaseTable readOnlyHost initialProc zeroObject
        (settings "/tmp/app" "svc" "INFO")).1 = true
    ∧ (ModuleInit baseCaseTable readOnlyHost initialProc zeroObject
        (settings "/tmp/app" "svc" "INFO")).2.2.Logger.w
        = some [some (Writer.console loggingTimeFormat), none]
    ∧ logCall acceptAll
        (ModuleInit baseCaseTable readOnlyHost initialProc zeroObject
          (settings "/tmp/app" "svc" "INFO")).2.1
        (ModuleInit baseCaseTable readOnlyHost initialProc zeroObject
          (settings "/tmp/app" "svc" "INFO")).2.2.Logger
        zerolog.InfoLevel someRecord
        = some (WriteResult.panicked, [Writer.console loggingTimeFormat]) := by
  refine ⟨?_, by decide, by decide, by decide⟩
  intro T h p logger cfgObj hok hfail
  rw [ModuleInit_result] at hok
  obtain ⟨l, hl⟩ := Option.isSome_iff_exists.mp hok
  obtain ⟨_, _, q, o, ho1, ho2, hw⟩ := ModuleInit_of_case T h p logger cfgObj l hl
  rw [hw, fileLogger_fails h q o (by rw [ho1, ho2]; exact hfail)]
  rfl

/-- C9, as amended: when the upper-cased level name is none of the four names,
`ModuleInit` returns false having assigned none of the `zerolog` globals (threshold, time
format, field names, the variable of the caller function), created no directory, logged
nothing, consulted the host for nothing and left the `Logger` field as it was; it has
printed its message and stored the rejected settings in the fields `config`,
`logFilePath`, `logFileName` and `logLevel` of the object. The installed caller function
annotates as before unless it is the closure over this same object, which from then on
annotates with the rejected configuration. -/
theorem ModuleInit_unrecognised (T : CaseTable) (h : Host) (p : Proc) (logger : Object)
    (cfgObj : Configurations)
    (hl : strings.ToUpper T cfgObj.LoggerConfigDetails.LogLevel ∉ levelNames) :
    (ModuleInit T h p logger cfgObj).1 = false
    ∧ (ModuleInit T h p logger cfgObj).2.1.zerolog = p.zerolog
    ∧ (ModuleInit T h p logger cfgObj).2.1.madeDirs = p.madeDirs
    ∧ (ModuleInit T h p logger cfgObj).2.1.logged = p.logged
    ∧ (ModuleInit T h p logger cfgObj).2.1.stdout
        = p.stdout ++ ["Incorrect log level given : ".toList
            ++ cfgObj.LoggerConfigDetails.LogLevel]
    ∧ (ModuleInit T h p logger cfgObj).2.2.Logger = logger.Logger
    ∧ (ModuleInit T h p logger cfgObj).2.2
        = { addr := logger.addr
            logFilePath := cfgObj.LoggerConfigDetails.LogFilePath
            logFileName := cfgObj.LoggerConfigDetails.LogFileName
            logLevel := cfgObj.LoggerConfigDetails.LogLevel
            Logger := logger.Logger
            config := some cfgObj }
    ∧ (∀ h0 : Host, ModuleInit T h0 p logger cfgObj = ModuleInit T h p logger cfgObj)
    ∧ (∀ (heap : Heap) (pc : Nat) (file : GoString) (line : Int),
        p.zerolog.CallerMarshalFunc ≠ CallerFunc.closure logger.addr →
        callCallerFunc (ModuleInit T h p logger cfgObj).2.1.zerolog.CallerMarshalFunc
            (heap.store (ModuleInit T h p logger cfgObj).2.2) pc file line
          = callCallerFunc p.zerolog.CallerMarshalFunc (heap.store logger) pc file line)
    ∧ (∀ (heap : Heap) (pc : Nat) (file : GoString) (line : Int),
        p.zerolog.CallerMarshalFunc = CallerFunc.closure logger.addr →
        callCallerFunc (ModuleInit T h p logger cfgObj).2.1.zerolog.CallerMarshalFunc
            (heap.store (ModuleInit T h p logger cfgObj).2.2) pc file line
          = CallerMarshalFunc cfgObj pc file line) := by
  have hnone : switchLevel (strings.ToUpper T cfgObj.LoggerConfigDetails.LogLevel) = none := by
    rw [← Option.not_isSome_iff_eq_none, switchLevel_isSome]
    exact hl
  simp only [ModuleInit]
  rw [hnone]
  refine ⟨rfl, rfl, rfl, rfl, rfl, rfl, rfl, fun _ => rfl, ?_, ?_⟩
  · intro heap pc file line hne
    show callCallerFunc p.zerolog.CallerMarshalFunc _ pc file line = _
    cases hf : p.zerolog.CallerMarshalFunc with
    | library => rfl
    | closure a =>
      have ha : a ≠ logger.addr := by
        intro e
        apply hne
        rw [hf, e]
      simp only [callCallerFunc, Heap.store, if_neg ha]
  · intro heap pc file line heq
    show callCallerFunc p.zerolog.CallerMarshalFunc _ pc file line = _
    rw [heq]
    simp [callCallerFunc, Heap.store]

/-- C9, witness: the settings of the scenario with the level TRACE, given to a fresh
object of a process in which no closure is installed. -/
theorem ModuleInit_unrecognised_witness :
    strings.ToUpper baseCaseTable (settings "/tmp/app" "svc" "TRACE").LoggerConfigDetails.LogLevel
        ∉ levelNames
    ∧ (ModuleInit baseCaseTable goodHost initialProc zeroObject
        (settings "/tmp/app" "svc" "TRACE")).1 = false
    ∧ (ModuleInit baseCaseTable goodHost initialProc zeroObject
        (settings "/tmp/app" "svc" "TRACE")).2.1.zerolog = initialProc.zerolog
    ∧ (ModuleInit baseCaseTable goodHost initialProc zeroObject
        (settings "/tmp/app" "svc" "TRACE")).2.1.madeDirs = initialProc.madeDirs
    ∧ (ModuleInit baseCaseTable goodHost initialProc zeroObject
        (settings "/tmp/app" "svc" "TRACE")).2.2.Logger = zeroObject.Logger
    ∧ (ModuleInit baseCaseTable goodHost initialProc zeroObject
        (settings "/tmp/app" "svc" "TRACE")).2.2.config
        = some (settings "/tmp/app" "svc" "TRACE") := by
  have w := ModuleInit_unrecognised baseCaseTable goodHost initialProc zeroObject
    (settings "/tmp/app" "svc" "TRACE") (by decide)
  refine ⟨by decide, w.1, w.2.1, w.2.2.1, w.2.2.2.2.2.1, ?_⟩
  rw [w.2.2.2.2.2.2.1]

/-- C9, counterexample: after a successful `ModuleInit` on an object, a second call on
the same object with an unsupported level returns false and leaves the package variable
as it was, yet the caller function, which annotated with `svc1`, now annotates with the
application name `other` of the rejected settings. -/
theorem ModuleInit_rejected_settings_reach_caller :
    scenarioInit.1 = true
    ∧ (ModuleInit baseCaseTable goodHost scenarioInit.2.1 scenarioInit.2.2 otherSettings).1
        = false
    ∧ (ModuleInit baseCaseTable goodHost scenarioInit.2.1 scenarioInit.2.2
        otherSettings).2.1.zerolog.CallerMarshalFunc
        = scenarioInit.2.1.zerolog.CallerMarshalFunc
    ∧ callCallerFunc scenarioInit.2.1.zerolog.CallerMarshalFunc
        (Heap.store (fun _ => none) scenarioInit.2.2) 0 "/x/y/main.go".toList 7
        = some "[[svc1] ==> main:7]".toList
    ∧ callCallerFunc
        (ModuleInit baseCaseTable goodHost scenarioInit.2.1 scenarioInit.2.2
          otherSettings).2.1.zerolog.CallerMarshalFunc
        (Heap.store (fun _ => none)
          (ModuleInit baseCaseTable goodHost scenarioInit.2.1 scenarioInit.2.2
            otherSettings).2.2) 0 "/x/y/main.go".toList 7
        = some "[[other] ==> main:7]".toList
    ∧ some "[[svc1] ==> main:7]".toList ≠ some "[[other] ==> main:7]".toList := by
  decide

theorem switchLevel_text (N : LevelName) : switchLevel N.text = some N.level := by
  cases N <;> rfl

theorem level_le_iff_rank (N L : LevelName) : N.level ≤ L.level ↔ N.rank ≤ L.rank := by
  cases N <;> cases L <;> decide

theorem TraceLevel_le (L : LevelName) : zerolog.TraceLevel ≤ L.level := by
  cases L <;> decide

/-- C10, as amended: when the level name upper-cases to the name of level `N`,
`ModuleInit` returns true and leaves `N` as the process-wide threshold, so a record at
level `L` passes the gate, and is handed to the sink, exactly when `N ≤ L` in the order
DEBUG < INFO < WARNING < ERROR. The sink holds the console writer first and then the
result of `fileLogger`. When the file writer was constructed and the writers accept the
bytes, a record that passes is delivered to both the console writer and the file writer;
when the console writer reports an error, the record goes no further than the console
writer. -/
theorem ModuleInit_threshold (T : CaseTable) (h : Host) (p : Proc) (logger : Object)
    (cfgObj : Configurations) (N L : LevelName)
    (dev : Writer → List UInt8 → Nat × Option GoString) (record : List UInt8)
    (hN : strings.ToUpper T cfgObj.LoggerConfigDetails.LogLevel = N.text) :
    (ModuleInit T h p logger cfgObj).1 = true
    ∧ (ModuleInit T h p logger cfgObj).2.1.zerolog.globalLevel = N.level
    ∧ (should (ModuleInit T h p logger cfgObj).2.1 (ModuleInit T h p logger cfgObj).2.2.Logger
          L.level = true ↔ N.rank ≤ L.rank)
    ∧ ((logCall dev (ModuleInit T h p logger cfgObj).2.1
          (ModuleInit T h p logger cfgObj).2.2.Logger L.level record).isSome = true
        ↔ N.rank ≤ L.rank)
    ∧ (∀ fw : Writer,
        (ModuleInit T h p logger cfgObj).2.2.Logger.w
          = some [some (Writer.console loggingTimeFormat), some fw] →
        (∀ w, dev w record = (record.length, none)) →
        N.rank ≤ L.rank →
        logCall dev (ModuleInit T h p logger cfgObj).2.1
            (ModuleInit T h p logger cfgObj).2.2.Logger L.level record
          = some (WriteResult.returned record.length none,
              [Writer.console loggingTimeFormat, fw]))
    ∧ (∃ fw : Option Writer,
        (ModuleInit T h p logger cfgObj).2.2.Logger.w
          = some [some (Writer.console loggingTimeFormat), fw])
    ∧ (∀ (fw : Option Writer) (n : Nat) (e : GoString),
        (ModuleInit T h p logger cfgObj).2.2.Logger.w
          = some [some (Writer.console loggingTimeFormat), fw] →
        dev (Writer.console loggingTimeFormat) record = (n, some e) →
        N.rank ≤ L.rank →
        logCall dev (ModuleInit T h p logger cfgObj).2.1
            (ModuleInit T h p logger cfgObj).2.2.Logger L.level record
          = some (WriteResult.returned n (some e), [Writer.console loggingTimeFormat])) := by
  have hs : switchLevel (strings.ToUpper T cfgObj.LoggerConfigDetails.LogLevel)
      = some N.level := by
    rw [hN]
    exact switchLevel_text N
  obtain ⟨h1, h2, q, o, _, _, hw⟩ := ModuleInit_of_case T h p logger cfgObj N.level hs
  have hlevel : (ModuleInit T h p logger cfgObj).2.1.zerolog.globalLevel = N.level := by
    rw [h2]
  have hgate : should (ModuleInit T h p logger cfgObj).2.1
      (ModuleInit T h p logger cfgObj).2.2.Logger L.level = true ↔ N.rank ≤ L.rank := by
    have htrace := TraceLevel_le L
    rw [← level_le_iff_rank N L]
    simp only [should, hw, hlevel, zerolog.New]
    by_cases hle : N.level ≤ L.level
    · simp [hle, not_lt.mpr htrace]
    · simp [hle, not_le.mp hle]
  refine ⟨h1, hlevel, hgate, ?_, ?_, ?_, ?_⟩
  · rw [← hgate]
    simp only [logCall, hw, zerolog.New]
    split <;> simp_all
  · intro fw hfw hdev hle
    have hpass := hgate.mpr hle
    simp only [logCall, hpass, if_true, hfw]
    simp [multiWrite, hdev]
  · exact ⟨_, by rw [hw]; rfl⟩
  · intro fw n e hfw hdev hle
    have hpass := hgate.mpr hle
    simp only [logCall, hpass, if_true, hfw]
    simp [multiWrite, hdev]

/-- C10, witness: the settings of the scenario with the level INFO on a host where the
file writer is constructed: a DEBUG record is not written, an INFO record goes to the
console writer and to the file writer. -/
theorem ModuleInit_threshold_witness :
    logCall acceptAll
        (ModuleInit baseCaseTable goodHost initialProc zeroObject
          (settings "/tmp/app" "svc" "INFO")).2.1
        (ModuleInit baseCaseTable goodHost initialProc zeroObject
          (settings "/tmp/app" "svc" "INFO")).2.2.Logger
        LevelName.DEBUG.level someRecord = none
    ∧ logCall acceptAll
        (ModuleInit baseCaseTable goodHost initialProc zeroObject
          (settings "/tmp/app" "svc" "INFO")).2.1
        (ModuleInit baseCaseTable goodHost initialProc zeroObject
          (settings "/tmp/app" "svc" "INFO")).2.2.Logger
        LevelName.INFO.level someRecord
        = some (WriteResult.returned someRecord.length none,
            [Writer.console loggingTimeFormat, Writer.rotate scenarioWriter]) := by
  have hD := ModuleInit_threshold baseCaseTable goodHost initialProc zeroObject
    (settings "/tmp/app" "svc" "INFO") LevelName.INFO LevelName.DEBUG acceptAll someRecord
    (by decide)
  have hI := ModuleInit_threshold baseCaseTable goodHost initialProc zeroObject
    (settings "/tmp/app" "svc" "INFO") LevelName.INFO LevelName.INFO acceptAll someRecord
    (by decide)
  refine ⟨?_, ?_⟩
  · have hnot := hD.2.2.2.1.not.mpr (by decide)
    simpa using hnot
  · exact hI.2.2.2.2.1 (Writer.rotate scenarioWriter) (by decide) (fun _ => rfl) (by decide)

/-- C10, counterexample: after a successful `ModuleInit` with the level INFO, an INFO
record is not delivered to both destinations when the console writer fails (the file
writer gets nothing), and on a host where the log directory cannot be created an ERROR
record reaches the console writer and then panics on the nil file writer. -/
theorem logCall_misses_file_writer :
    scenarioInit.1 = true
    ∧ scenarioInit.2.1.zerolog.globalLevel = LevelName.INFO.level
    ∧ scenarioInit.2.2.Logger.w
        = some [some (Writer.console loggingTimeFormat), some (Writer.rotate scenarioWriter)]
    ∧ logCall consoleFails scenarioInit.2.1 scenarioInit.2.2.Logger LevelName.INFO.level
        someRecord
        = some (WriteResult.returned 0 (some "write /dev/stderr: file already closed".toList),
            [Writer.console loggingTimeFormat])
    ∧ (ModuleInit baseCaseTable readOnlyHost initialProc zeroObject
        (settings "/tmp/app" "svc" "INFO")).1 = true
    ∧ logCall acceptAll
        (ModuleInit baseCaseTable readOnlyHost initialProc zeroObject
          (settings "/tmp/app" "svc" "INFO")).2.1
        (ModuleInit baseCaseTable readOnlyHost initialProc zeroObject
          (settings "/tmp/app" "svc" "INFO")).2.2.Logger
        LevelName.ERROR.level someRecord
        = some (WriteResult.panicked, [Writer.console loggingTimeFormat]) := by
  decide

end Zerologger
